import Mathlib

/-!
Verification of the dependency-gathering core of `gather-dependencies`
(`main.go`): binary classification (`getLibraryMachineType`), per-file
dependency extraction (`getDependenciesParse`), library resolution
(`findLibraryLDConfig` / `selectLibrary`) and the worklist-based closure
computation (`getDependenciesRecursive`).

Go functions returning `(T, error)` and possibly panicking are embedded as
`Outcome T` with three constructors: `panics` (a Go `panic`, which aborts the
process), `fails e` (a non-nil `error` return) and `ok v` (a nil-error
return).  External collaborators (`ioutil.ReadFile` + `elf_reader.ParseELFFile`,
the `ldconfig -p` cache enumeration) are passed in as parameters; a collaborator
failure is an `Except.error`, which the embedded functions turn into whatever
the source does with it (`panic(err)` at the call sites in
`getLibraryMachineType` and `getDependenciesParse`).
-/

/-- Errors produced by the source's `fmt.Errorf` sites, one constructor per
format string, carrying the formatted arguments; `ioError` stands for an
error produced by an external collaborator (file read, ELF parse, exec). -/
inductive GoError where
  | libraryNotFoundInCache (name : String)
  | libraryNotAvailable (name : String) (machineType : String)
  | noDynamicSection (file : String)
  | noDynamicStringsSection (file : String)
  | couldNotFindLibraryFile (lib : String) (cause : GoError)
  | ioError (msg : String)
deriving DecidableEq, Repr

/-- Outcome of a Go function call: a panic, a non-nil error, or a value. -/
inductive Outcome (α : Type) where
  | panics : Outcome α
  | fails : GoError → Outcome α
  | ok : α → Outcome α
deriving DecidableEq, Repr

/-- Result of parsing an ELF container: the variant type returned by
`elf_reader.ParseELFFile` (`*elf.ELF32File`, `*elf.ELF64File`, or some other
implementation of the interface). -/
inductive ELFKind where
  | elf32
  | elf64
  | otherFormat
deriving DecidableEq, Repr

deriving instance DecidableEq for Except

/-- Machine-type constant `machineTypeUnknown = ""`. -/
def machineTypeUnknown : String := ""

/-- Machine-type constant `machineTypeX86 = "x86"`. -/
def machineTypeX86 : String := "x86"

/-- Machine-type constant `machineTypeAMD64 = "x86-64"`. -/
def machineTypeAMD64 : String := "x86-64"

/-- Embeds `getLibraryMachineType` (main.go:381-417).  `readAndParseELF`
models `ioutil.ReadFile` followed by `elf_reader.ParseELFFile`; an error from
either is met with `panic(err)` in the source, so the embedded function maps
it to `.panics`.  The Go function never returns a non-nil error: every
non-panicking path returns a machine-type string and `nil`. -/
def getLibraryMachineType (readAndParseELF : String → Except GoError ELFKind)
    (path : String) : Outcome String :=
  match readAndParseELF path with
  | .error _ => .panics
  | .ok .elf32 => .ok machineTypeX86
  | .ok .elf64 => .ok machineTypeAMD64
  | .ok .otherFormat => .ok machineTypeUnknown

/-- Embeds `selectLibrary` (main.go:368-379): walk the candidate list in
order; classify each; a non-nil classification error is returned as-is (this
branch is dead in the source because `getLibraryMachineType` panics instead
of returning errors, but it is kept faithful here); a candidate whose type
equals the global `machineType` is returned; otherwise continue.  Exhausting
the list yields the "not available for machine type" error. -/
def selectLibrary (classify : String → Outcome String) (machineType : String)
    (name : String) : List String → Outcome String
  | [] => .fails (.libraryNotAvailable name machineType)
  | lib :: rest =>
    match classify lib with
    | .panics => .panics
    | .fails e => .fails e
    | .ok libType =>
      if libType = machineType then .ok lib
      else selectLibrary classify machineType name rest

/-- Embeds `findLibraryLDConfig` (main.go:341-366) after the `ldconfig -p`
output has been regex-parsed into `(name, path)` pairs: the candidates are
the paths of the cache entries whose name equals the requested one, in
enumeration order; an empty candidate list is the "not found in library
cache" error; otherwise `selectLibrary` picks the candidate. -/
def findLibraryLDConfig (classify : String → Outcome String) (machineType : String)
    (cache : List (String × String)) (name : String) : Outcome String :=
  let candidates := (cache.filter (fun e => e.fst = name)).map (fun e => e.snd)
  if candidates.isEmpty then .fails (.libraryNotFoundInCache name)
  else selectLibrary classify machineType name candidates

/-- A dynamic-section entry as surfaced by `elf_reader`: tag value and entry
value (for NEEDED entries, a byte offset into the dynamic string table). -/
structure DynEntry where
  tag : Nat
  value : Nat
deriving DecidableEq, Repr

/-- A parsed ELF section as the source consumes it: its name
(`GetSectionName`), raw content bytes (`GetSectionContent`) and, for the
dynamic section, its entry list (`DynamicEntries`). -/
structure ELFSection where
  name : String
  content : List Nat
  dynEntries : List DynEntry
deriving DecidableEq, Repr

/-- A parsed ELF file: an ordered list of sections; index 0 is the null
section, which the source's scans skip (loops start at `i := 1`). -/
structure ELFFile where
  sections : List ELFSection
deriving DecidableEq, Repr

/-- The scan loop of main.go:260-269 / 277-286: starting at index `i`, return
the index of the first section whose name matches, or 0 when none does. -/
def findSectionFrom (nm : String) : Nat → List ELFSection → Nat
  | _, [] => 0
  | i, s :: rest => if s.name = nm then i else findSectionFrom nm (i + 1) rest

/-- Section lookup as the source performs it: scan indices `1 ..< count`,
keep the first match, 0 means "not found". -/
def findSectionIdx (secs : List ELFSection) (nm : String) : Nat :=
  findSectionFrom nm 1 (secs.drop 1)

/-- Embeds the string read of main.go:305-312: `end` walks from `start` to
the first NUL byte or the end of `data`, then the name is `data[start:end]`.
A `start` beyond `len(data)` makes the Go slice expression panic. -/
def readLibName (data : List Nat) (start : Nat) : Outcome String :=
  if data.length < start then .panics
  else .ok (String.mk (((data.drop start).takeWhile (fun b => b ≠ 0)).map
    (fun b => Char.ofNat b)))

/-- The NEEDED loop of main.go:302-319: for each entry with tag 1, read the
name at its offset from the string-table bytes, resolve it through
`findLibrary` (here the parameter `find`), wrap a resolution error as
"Could not find library file", and collect the resolved paths in order. -/
def lookupNeeded (find : String → Outcome String) (data : List Nat) :
    List DynEntry → Outcome (List String)
  | [] => .ok []
  | e :: rest =>
    if e.tag = 1 then
      match readLibName data e.value with
      | .panics => .panics
      | .fails er => .fails er
      | .ok str =>
        match find str with
        | .panics => .panics
        | .fails er => .fails (.couldNotFindLibraryFile str er)
        | .ok path =>
          match lookupNeeded find data rest with
          | .panics => .panics
          | .fails er => .fails er
          | .ok l => .ok (path :: l)
    else lookupNeeded find data rest

/-- Embeds `getDependenciesParse` (main.go:246-322).  `readAndParseELF`
models `ioutil.ReadFile` + `elf_reader.ParseELFFile`, whose errors the source
meets with `panic(err)`.  Then: locate `.dynamic` (error "No dynamic section"
when absent), locate `.dynstr` (error "No dynamic strings section" when
absent), take the dynamic entries and the string-table bytes, and run the
NEEDED loop.  Accessor errors of the already-parsed file
(`GetSectionName`/`DynamicEntries`/`GetSectionContent`) are not modelled:
the parsed view is taken to answer them totally. -/
def getDependenciesParse (find : String → Outcome String)
    (readAndParseELF : String → Except GoError ELFFile) (file : String) :
    Outcome (List String) :=
  match readAndParseELF file with
  | .error _ => .panics
  | .ok f =>
    let dynSection := findSectionIdx f.sections ".dynamic"
    if dynSection = 0 then .fails (.noDynamicSection file)
    else
      let dynStrSection := findSectionIdx f.sections ".dynstr"
      if dynStrSection = 0 then .fails (.noDynamicStringsSection file)
      else
        let entries := (f.sections.getD dynSection ⟨"", [], []⟩).dynEntries
        let data := (f.sections.getD dynStrSection ⟨"", [], []⟩).content
        lookupNeeded find data entries

/-- State of the worklist loop of `getDependenciesRecursive`
(main.go:179-203): the `open` queue, the `seen` map (modelled as the list of
keys present with value `true`) and the accumulated `files` output. -/
structure DrainState where
  openList : List String
  seen : List String
  files : List String
deriving DecidableEq, Repr

/-- The inner loop of main.go:197-202: for each dependency of the file just
processed, if it is not in `seen`, append it to the tail of `open` and mark
it seen. -/
def enqueueNew (seen openL : List String) : List String → List String × List String
  | [] => (seen, openL)
  | lib :: rest =>
    if lib ∈ seen then enqueueNew seen openL rest
    else enqueueNew (lib :: seen) (openL ++ [lib]) rest

/-- One iteration of the drain loop of main.go:185-203, given the per-file
dependency query `g` (the source's `getDependencies`): when `open` is empty
the loop exits (`.ok none`); otherwise pop the head, query its dependencies
(a panic or error aborts everything), append the popped path to `files`, and
enqueue the not-yet-seen dependencies. -/
def drainStep (g : String → Outcome (List String)) (s : DrainState) :
    Outcome (Option DrainState) :=
  match s.openList with
  | [] => .ok none
  | lib :: rest =>
    match g lib with
    | .panics => .panics
    | .fails e => .fails e
    | .ok libs =>
      let p := enqueueNew s.seen rest libs
      .ok (some ⟨p.snd, p.fst, s.files ++ [lib]⟩)

/-- The drain loop, run with explicit fuel (the Go loop has no bound of its
own; it terminates because `seen` only grows).  `.ok none` here means the
fuel ran out before the worklist drained; `.ok (some files)` is the loop's
normal exit with the accumulated output. -/
def drainFuel (g : String → Outcome (List String)) :
    Nat → DrainState → Outcome (Option (List String))
  | fuel, s =>
    match drainStep g s with
    | .panics => .panics
    | .fails e => .fails e
    | .ok none => .ok (some s.files)
    | .ok (some s') =>
      match fuel with
      | 0 => .ok none
      | n + 1 => drainFuel g n s'

/-- The seeding loop of main.go:179-182: insert every root-level dependency
into the `seen` map (duplicate inserts are no-ops). -/
def seedSeen (openL : List String) : List String :=
  openL.foldl (fun se lib => if lib ∈ se then se else lib :: se) []

/-- Embeds `getDependenciesRecursive` (main.go:174-206): query the root's
dependencies (failure aborts), seed `open` with that list as-is and `seen`
with its members, then drain.  Note the worklist itself is seeded with the
raw list, duplicates included — only `seen` deduplicates. -/
def getDependenciesRecursive (g : String → Outcome (List String)) (fuel : Nat)
    (file : String) : Outcome (Option (List String)) :=
  match g file with
  | .panics => .panics
  | .fails e => .fails e
  | .ok openL => drainFuel g fuel ⟨openL, seedSeen openL, []⟩

/-!  Concrete scenarios.  -/

/-- Bytes of a string, for building dynamic string tables. -/
def strBytes (s : String) : List Nat := s.toList.map Char.toNat

/-- An ELF file with a `.dynamic` section holding the given NEEDED entries
and a `.dynstr` section holding the given string-table bytes (plus the
leading null section the scans skip). -/
def mkDynELF (entries : List DynEntry) (strTab : List Nat) : ELFFile :=
  ⟨[⟨"", [], []⟩, ⟨".dynamic", [], entries⟩, ⟨".dynstr", strTab, []⟩]⟩

/-- An ELF file with no `.dynamic` section at all (a statically linked
binary's view). -/
def staticELF : ELFFile := ⟨[⟨"", [], []⟩, ⟨".text", [1, 2, 3], []⟩]⟩

/-- Dependency query for the cyclic graph A → B → A. -/
def cycleGraph : String → Outcome (List String) := fun f =>
  if f = "A" then .ok ["B"]
  else if f = "B" then .ok ["A"]
  else .ok []

/-- Dependency query whose root lists the same resolved path twice (the same
library reachable via two required-name strings that resolve identically). -/
def dupSeedGraph : String → Outcome (List String) := fun f =>
  if f = "root" then .ok ["/lib/p.so", "/lib/p.so"] else .ok []

/-- ELF parse results for the diamond scenario: the root binary and the three
libraries are all 64-bit ELF files; everything else fails to read. -/
def diamondKinds : String → Except GoError ELFKind := fun f =>
  if f = "/bin/root" ∨ f = "/lib/liba.so" ∨ f = "/lib/libb.so" ∨ f = "/lib/libc.so" then
    .ok .elf64
  else .error (.ioError f)

/-- Library cache enumeration for the diamond scenario. -/
def diamondCache : List (String × String) :=
  [("liba.so", "/lib/liba.so"), ("libb.so", "/lib/libb.so"), ("libc.so", "/lib/libc.so")]

/-- Parsed file contents for the diamond scenario: the root needs `liba.so`
and `libb.so`; each of those needs `libc.so`; `libc.so` has a dynamic section
with no NEEDED entry. -/
def diamondFS : String → Except GoError ELFFile := fun f =>
  if f = "/bin/root" then
    .ok (mkDynELF [⟨1, 0⟩, ⟨1, 8⟩] (strBytes "liba.so" ++ [0] ++ strBytes "libb.so" ++ [0]))
  else if f = "/lib/liba.so" then .ok (mkDynELF [⟨1, 0⟩] (strBytes "libc.so" ++ [0]))
  else if f = "/lib/libb.so" then .ok (mkDynELF [⟨1, 0⟩] (strBytes "libc.so" ++ [0]))
  else if f = "/lib/libc.so" then .ok (mkDynELF [] [0])
  else .error (.ioError f)

/-- Name resolution for the diamond scenario: the full source pipeline
`findLibraryLDConfig` over the diamond cache, classifying candidates with
`getLibraryMachineType`, for a 64-bit target. -/
def diamondFind : String → Outcome String :=
  findLibraryLDConfig (getLibraryMachineType diamondKinds) machineTypeAMD64 diamondCache

/-- Per-file dependency query for the diamond scenario: the source pipeline
`getDependenciesParse` over the diamond files and resolver. -/
def diamondDeps : String → Outcome (List String) := fun f =>
  getDependenciesParse diamondFind diamondFS f

/-- Parsed file contents for the static-leaf scenario: `/bin/app` needs
`static.so`, and the resolved `/lib/static.so` has no dynamic section. -/
def staticFS : String → Except GoError ELFFile := fun f =>
  if f = "/bin/app" then .ok (mkDynELF [⟨1, 0⟩] (strBytes "static.so" ++ [0]))
  else if f = "/lib/static.so" then .ok staticELF
  else .error (.ioError f)

/-- ELF parse results for the static-leaf scenario: both files read as
64-bit ELF. -/
def staticKinds : String → Except GoError ELFKind := fun f =>
  if f = "/bin/app" ∨ f = "/lib/static.so" then .ok .elf64 else .error (.ioError f)

/-- Name resolution for the static-leaf scenario. -/
def staticFind : String → Outcome String :=
  findLibraryLDConfig (getLibraryMachineType staticKinds) machineTypeAMD64
    [("static.so", "/lib/static.so")]

/-- Per-file dependency query for the static-leaf scenario. -/
def staticDeps : String → Outcome (List String) := fun f =>
  getDependenciesParse staticFind staticFS f

/-- ELF parse results for the probe-failure scenario: `/lib32/libx.so` cannot
be read or parsed, `/lib64/libx.so` is a 64-bit ELF. -/
def probeKinds : String → Except GoError ELFKind := fun f =>
  if f = "/lib64/libx.so" then .ok .elf64 else .error (.ioError f)

/-- ELF parse results for the multilib scenario: `/lib32/libz.so` is 32-bit,
`/lib64/libz.so` is 64-bit. -/
def multilibKinds : String → Except GoError ELFKind := fun f =>
  if f = "/lib32/libz.so" then .ok .elf32
  else if f = "/lib64/libz.so" then .ok .elf64
  else .error (.ioError f)

/-- A resolver stub that accepts any name, recording it inside the resolved
path; it stands for a cache in which every probed name happens to resolve. -/
def stubFind : String → Outcome String := fun n => .ok ("/cache/" ++ n)

/-- A filesystem with one file whose single NEEDED entry points exactly at
the end of the 4-byte dynamic string table. -/
def atBoundFS : String → Except GoError ELFFile := fun _ =>
  .ok (mkDynELF [⟨1, 4⟩] [108, 105, 98, 0])

/-- A filesystem with one file whose single NEEDED entry points one byte past
the end of the 4-byte dynamic string table. -/
def pastBoundFS : String → Except GoError ELFFile := fun _ =>
  .ok (mkDynELF [⟨1, 5⟩] [108, 105, 98, 0])

/-- An ELF file that has a `.dynamic` section but no `.dynstr` section. -/
def noStrELF : ELFFile := ⟨[⟨"", [], []⟩, ⟨".dynamic", [], [⟨1, 0⟩]⟩]⟩

/-- A filesystem whose only file is `noStrELF`. -/
def noStrFS : String → Except GoError ELFFile := fun _ => .ok noStrELF

/-- The loop invariant of the drain loop: every path in the worklist and
every path already in the output is recorded in the seen-map. -/
def drainInv (s : DrainState) : Prop :=
  (∀ x ∈ s.openList, x ∈ s.seen) ∧ (∀ x ∈ s.files, x ∈ s.seen)

/-- Reachability between drain-loop states in zero or more successful
iterations. -/
def Reaches (g : String → Outcome (List String)) : DrainState → DrainState → Prop :=
  Relation.ReflTransGen (fun s s' => drainStep g s = .ok (some s'))

/-!  General lemmas about the drain loop.  -/

/-- Unfolding the drain loop by one successful iteration. -/
theorem drainFuel_succ (g : String → Outcome (List String)) (n : Nat)
    (s s' : DrainState) (h : drainStep g s = .ok (some s')) :
    drainFuel g (n + 1) s = drainFuel g n s' := by
  rw [drainFuel]
  simp only [h]

/-- When the root's dependency query succeeds, the closure computation is the
drain loop started from the worklist seeded with the raw dependency list and
the seen-map seeded with its members. -/
theorem getDependenciesRecursive_ok_seed (g : String → Outcome (List String))
    (fuel : Nat) (file : String) (openL : List String) (h : g file = .ok openL) :
    getDependenciesRecursive g fuel file =
      drainFuel g fuel ⟨openL, seedSeen openL, []⟩ := by
  rw [getDependenciesRecursive]
  simp only [h]

/-- A complete scan over sections none of which bears the wanted name yields
the sentinel index 0. -/
theorem findSectionFrom_eq_zero (nm : String) :
    ∀ (l : List ELFSection) (i : Nat), (∀ s ∈ l, s.name ≠ nm) →
    findSectionFrom nm i l = 0 := by
  intro l
  induction l with
  | nil => intro i _; rfl
  | cons s rest ih =>
    intro i hall
    rw [findSectionFrom, if_neg (hall s (List.mem_cons_self s rest))]
    exact ih (i + 1) (fun s' hs' => hall s' (List.mem_cons_of_mem _ hs'))

/-- A scan starting from a positive index over sections at least one of which
bears the wanted name yields a nonzero (hence found) index. -/
theorem findSectionFrom_ne_zero (nm : String) :
    ∀ (l : List ELFSection) (i : Nat), 1 ≤ i → (∃ s ∈ l, s.name = nm) →
    findSectionFrom nm i l ≠ 0 := by
  intro l
  induction l with
  | nil =>
    intro i _ hex
    obtain ⟨s, hs, _⟩ := hex
    exact absurd hs (by simp)
  | cons s rest ih =>
    intro i hi hex
    by_cases h : s.name = nm
    · rw [findSectionFrom, if_pos h]
      omega
    · rw [findSectionFrom, if_neg h]
      refine ih (i + 1) (by omega) ?_
      obtain ⟨s', hs', hnm⟩ := hex
      rcases List.mem_cons.mp hs' with rfl | hmem
      · exact absurd hnm h
      · exact ⟨s', hmem, hnm⟩

/-- The inner enqueue loop appends to `open` exactly one copy of each library
that was not yet seen, in order of first occurrence, and marks exactly those
libraries seen. -/
theorem enqueueNew_spec (libs : List String) : ∀ seen openL, ∃ newL,
    (enqueueNew seen openL libs).2 = openL ++ newL ∧
    newL.Nodup ∧
    (∀ x ∈ newL, x ∉ seen) ∧
    (∀ x, x ∈ (enqueueNew seen openL libs).1 ↔ x ∈ seen ∨ x ∈ newL) ∧
    (∀ x ∈ newL, x ∈ libs) := by
  induction libs with
  | nil =>
    intro seen openL
    exact ⟨[], by simp [enqueueNew], by simp, by simp, by simp [enqueueNew], by simp⟩
  | cons lib rest ih =>
    intro seen openL
    by_cases h : lib ∈ seen
    · obtain ⟨newL, h1, h2, h3, h4, h5⟩ := ih seen openL
      refine ⟨newL, ?_, h2, h3, ?_, ?_⟩
      · simpa [enqueueNew, h] using h1
      · simpa [enqueueNew, h] using h4
      · exact fun x hx => List.mem_cons_of_mem _ (h5 x hx)
    · obtain ⟨newL, h1, h2, h3, h4, h5⟩ := ih (lib :: seen) (openL ++ [lib])
      refine ⟨lib :: newL, ?_, ?_, ?_, ?_, ?_⟩
      · rw [show enqueueNew seen openL (lib :: rest) =
            enqueueNew (lib :: seen) (openL ++ [lib]) rest by simp [enqueueNew, h], h1]
        simp
      · exact List.nodup_cons.mpr
          ⟨fun hm => (h3 lib hm) (List.mem_cons_self lib seen), h2⟩
      · intro x hx
        rcases List.mem_cons.mp hx with rfl | hx'
        · exact h
        · exact fun hs => (h3 x hx') (List.mem_cons_of_mem _ hs)
      · intro x
        rw [show enqueueNew seen openL (lib :: rest) =
            enqueueNew (lib :: seen) (openL ++ [lib]) rest by simp [enqueueNew, h]]
        rw [h4 x]
        simp [List.mem_cons]
        tauto
      · intro x hx
        rcases List.mem_cons.mp hx with rfl | hx'
        · exact List.mem_cons_self _ _
        · exact List.mem_cons_of_mem _ (h5 x hx')

/-- Characterization of one successful drain iteration: the head of the
worklist is popped, its dependencies are queried successfully, the popped
path is appended to the output once, the not-yet-seen dependencies are
appended to the worklist tail in first-occurrence order without duplicates,
and exactly those become seen. -/
theorem drainStep_some_spec (g : String → Outcome (List String)) (s s' : DrainState)
    (h : drainStep g s = .ok (some s')) :
    ∃ lib rest libs newL,
      s.openList = lib :: rest ∧
      g lib = .ok libs ∧
      s'.files = s.files ++ [lib] ∧
      s'.openList = rest ++ newL ∧
      newL.Nodup ∧
      (∀ x ∈ newL, x ∉ s.seen ∧ x ∈ libs) ∧
      (∀ x, x ∈ s'.seen ↔ x ∈ s.seen ∨ x ∈ newL) := by
  rcases hs : s.openList with _ | ⟨lib, rest⟩
  · simp [drainStep, hs] at h
  · rcases hg : g lib with _ | e | libs
    · simp [drainStep, hs, hg] at h
    · simp [drainStep, hs, hg] at h
    · simp only [drainStep, hs, hg] at h
      obtain ⟨newL, h1, h2, h3, h4, h5⟩ := enqueueNew_spec libs s.seen rest
      injection h with ha
      injection ha with hb
      subst hb
      exact ⟨lib, rest, libs, newL, rfl, hg, rfl, h1, h2,
        fun x hx => ⟨h3 x hx, h5 x hx⟩, h4⟩

/-- When the worklist is empty, the drain loop exits immediately with the
accumulated output, whatever fuel remains. -/
theorem drainFuel_empty (g : String → Outcome (List String)) (fuel : Nat)
    (s : DrainState) (h : s.openList = []) :
    drainFuel g fuel s = .ok (some s.files) := by
  rw [drainFuel]
  simp [drainStep, h]

/-- Membership in the seeded seen-map is membership in the root's dependency
list. -/
theorem seedSeen_mem (openL : List String) (x : String) :
    x ∈ seedSeen openL ↔ x ∈ openL := by
  suffices h : ∀ acc, x ∈ openL.foldl
      (fun se lib => if lib ∈ se then se else lib :: se) acc ↔ x ∈ acc ∨ x ∈ openL by
    simpa [seedSeen] using h []
  induction openL with
  | nil => simp
  | cons lib rest ih =>
    intro acc
    by_cases h : lib ∈ acc
    · rw [List.foldl_cons, if_pos h, ih acc]
      constructor
      · rintro (hx | hx)
        · exact Or.inl hx
        · exact Or.inr (List.mem_cons_of_mem _ hx)
      · rintro (hx | hx)
        · exact Or.inl hx
        · rcases List.mem_cons.mp hx with rfl | hx'
          · exact Or.inl h
          · exact Or.inr hx'
    · rw [List.foldl_cons, if_neg h, ih (lib :: acc)]
      simp [List.mem_cons]
      tauto

/-- A successful drain iteration preserves the no-duplicates invariant: the
output-so-far and the worklist jointly contain no repeats and are all seen. -/
theorem drainStep_preserves_nodupInv (g : String → Outcome (List String))
    (s s' : DrainState) (h : drainStep g s = .ok (some s'))
    (hnd : (s.files ++ s.openList).Nodup)
    (hsub : ∀ x ∈ s.files ++ s.openList, x ∈ s.seen) :
    (s'.files ++ s'.openList).Nodup ∧ (∀ x ∈ s'.files ++ s'.openList, x ∈ s'.seen) := by
  obtain ⟨lib, rest, libs, newL, hs, hg, hf, ho, hnodup, hnew, hseen⟩ :=
    drainStep_some_spec g s s' h
  have hlist : s'.files ++ s'.openList = (s.files ++ s.openList) ++ newL := by
    rw [hf, ho, hs]
    simp
  constructor
  · rw [hlist]
    refine List.nodup_append.mpr ⟨hnd, hnodup, ?_⟩
    intro x hx hx'
    exact (hnew x hx').1 (hsub x hx)
  · intro x hx
    rw [hlist] at hx
    rcases List.mem_append.mp hx with hx | hx
    · exact (hseen x).mpr (Or.inl (hsub x hx))
    · exact (hseen x).mpr (Or.inr hx)

/-- If at entry to the drain loop the output-so-far plus the worklist has no
duplicate and is contained in the seen-map, the loop's final output has no
duplicate. -/
theorem drainFuel_nodup (g : String → Outcome (List String)) :
    ∀ (fuel : Nat) (s : DrainState) (out : List String),
    (s.files ++ s.openList).Nodup →
    (∀ x ∈ s.files ++ s.openList, x ∈ s.seen) →
    drainFuel g fuel s = .ok (some out) → out.Nodup := by
  intro fuel
  induction fuel with
  | zero =>
    intro s out hnd hsub h
    rw [drainFuel] at h
    rcases hstep : drainStep g s with _ | e | os
    · simp [hstep] at h
    · simp [hstep] at h
    simp only [hstep] at h
    rcases os with _ | s'
    · simp only [Outcome.ok.injEq, Option.some.injEq] at h
      subst h
      exact hnd.of_append_left
    · simp at h
  | succ n ih =>
    intro s out hnd hsub h
    rw [drainFuel] at h
    rcases hstep : drainStep g s with _ | e | os
    · simp [hstep] at h
    · simp [hstep] at h
    simp only [hstep] at h
    rcases os with _ | s'
    · simp only [Outcome.ok.injEq, Option.some.injEq] at h
      subst h
      exact hnd.of_append_left
    · have hpres := drainStep_preserves_nodupInv g s s' hstep hnd hsub
      exact ih s' out hpres.1 hpres.2 h

/-- If a path is listed as a dependency by no file, and is in neither the
worklist nor the output-so-far, then it never reaches the output. -/
theorem drainFuel_not_mem (g : String → Outcome (List String)) (r : String) :
    ∀ (fuel : Nat) (s : DrainState) (out : List String),
    (∀ f libs, g f = .ok libs → r ∉ libs) →
    r ∉ s.openList → r ∉ s.files →
    drainFuel g fuel s = .ok (some out) → r ∉ out := by
  intro fuel
  induction fuel with
  | zero =>
    intro s out hnever ho hf h
    rw [drainFuel] at h
    rcases hstep : drainStep g s with _ | e | os
    · simp [hstep] at h
    · simp [hstep] at h
    simp only [hstep] at h
    rcases os with _ | s'
    · simp only [Outcome.ok.injEq, Option.some.injEq] at h
      subst h
      exact hf
    · simp at h
  | succ n ih =>
    intro s out hnever ho hf h
    rw [drainFuel] at h
    rcases hstep : drainStep g s with _ | e | os
    · simp [hstep] at h
    · simp [hstep] at h
    simp only [hstep] at h
    rcases os with _ | s'
    · simp only [Outcome.ok.injEq, Option.some.injEq] at h
      subst h
      exact hf
    · obtain ⟨lib, rest, libs, newL, hs, hg, hfi, hop, _, hnew, _⟩ :=
        drainStep_some_spec g s s' hstep
      refine ih s' out hnever ?_ ?_ h
      · rw [hop]
        intro hx
        rcases List.mem_append.mp hx with hx | hx
        · exact ho (by rw [hs]; exact List.mem_cons_of_mem _ hx)
        · exact hnever lib libs hg (((hnew r hx).2))
      · rw [hfi]
        intro hx
        rcases List.mem_append.mp hx with hx | hx
        · exact hf hx
        · rcases List.mem_singleton.mp hx with rfl
          exact ho (by rw [hs]; exact List.mem_cons_self _ _)

/-- A successful drain iteration preserves the seen-set invariant and grows
the seen-map monotonically. -/
theorem drainStep_preserves_inv (g : String → Outcome (List String))
    (s s' : DrainState) (h : drainStep g s = .ok (some s'))
    (hinv : drainInv s) : drainInv s' := by
  obtain ⟨lib, rest, libs, newL, hs, hg, hf, ho, _, _, hseen⟩ :=
    drainStep_some_spec g s s' h
  constructor
  · intro x hx
    rw [ho] at hx
    rcases List.mem_append.mp hx with hx | hx
    · exact (hseen x).mpr (Or.inl (hinv.1 x (by rw [hs]; exact List.mem_cons_of_mem _ hx)))
    · exact (hseen x).mpr (Or.inr hx)
  · intro x hx
    rw [hf] at hx
    rcases List.mem_append.mp hx with hx | hx
    · exact (hseen x).mpr (Or.inl (hinv.2 x hx))
    · rcases List.mem_singleton.mp hx with rfl
      exact (hseen x).mpr (Or.inl (hinv.1 x (by rw [hs]; exact List.mem_cons_self _ _)))

/-- The seen-set invariant holds in every state the drain loop reaches from a
state satisfying it. -/
theorem reaches_preserves_inv (g : String → Outcome (List String))
    (s₀ s : DrainState) (hinv : drainInv s₀) (hr : Reaches g s₀ s) : drainInv s := by
  induction hr with
  | refl => exact hinv
  | tail _ hstep ih => exact drainStep_preserves_inv g _ _ hstep ih

/-- Walking the candidate list, every classified non-matching candidate is
skipped and the first matching one is returned. -/
theorem selectLibrary_first_match (classify : String → Outcome String)
    (mt name : String) :
    ∀ (cands₁ : List String) (c : String) (cands₂ : List String),
    (∀ c' ∈ cands₁, ∃ t, classify c' = .ok t ∧ t ≠ mt) →
    classify c = .ok mt →
    selectLibrary classify mt name (cands₁ ++ c :: cands₂) = .ok c := by
  intro cands₁
  induction cands₁ with
  | nil =>
    intro c cands₂ _ hc
    simp [selectLibrary, hc]
  | cons d ds ih =>
    intro c cands₂ hpre hc
    obtain ⟨t, ht, hne⟩ := hpre d (List.mem_cons_self _ _)
    rw [List.cons_append, selectLibrary, ht]
    simp only [if_neg hne]
    exact ih c cands₂ (fun c' h' => hpre c' (List.mem_cons_of_mem _ h')) hc

/-- Exhausting a candidate list in which every candidate classifies to a type
other than the target yields the architecture-mismatch error. -/
theorem selectLibrary_all_mismatch (classify : String → Outcome String)
    (mt name : String) :
    ∀ cands : List String,
    (∀ c ∈ cands, ∃ t, classify c = .ok t ∧ t ≠ mt) →
    selectLibrary classify mt name cands = .fails (.libraryNotAvailable name mt) := by
  intro cands
  induction cands with
  | nil => intro _; rfl
  | cons d ds ih =>
    intro hall
    obtain ⟨t, ht, hne⟩ := hall d (List.mem_cons_self _ _)
    rw [selectLibrary, ht]
    simp only [if_neg hne]
    exact ih (fun c' h' => hall c' (List.mem_cons_of_mem _ h'))


/-!  Claim theorems.  -/

/-- C1 (counterexample): the claim that the closure output never repeats a
path — even when the root binary's direct dependency list contains the same
resolved path more than once — is false: the worklist is seeded with the raw
direct-dependency list, so a root listing `/lib/p.so` twice yields an output
containing `/lib/p.so` twice. -/
theorem c1_no_duplicates_counterexample :
    getDependenciesRecursive dupSeedGraph 10 "root" =
      .ok (some ["/lib/p.so", "/lib/p.so"]) ∧
    ¬ (["/lib/p.so", "/lib/p.so"] : List String).Nodup :=
  ⟨by decide, by decide⟩

/-- C1 (amended): whenever the root's direct dependency list itself contains
no repeated resolved path, the closure output contains no repeated path —
paths reachable via multiple edges or multiple required-name strings during
draining are deduplicated by the seen-map. -/
theorem c1_no_duplicates_amended (g : String → Outcome (List String))
    (fuel : Nat) (file : String) (openL out : List String)
    (hroot : g file = .ok openL) (hnd : openL.Nodup)
    (hrun : getDependenciesRecursive g fuel file = .ok (some out)) :
    out.Nodup := by
  rw [getDependenciesRecursive_ok_seed g fuel file openL hroot] at hrun
  refine drainFuel_nodup g fuel _ out ?_ ?_ hrun
  · simpa using hnd
  · intro x hx
    simp only [List.nil_append] at hx
    exact (seedSeen_mem openL x).mpr hx

/-- Witness for the amended C1 at the cyclic graph A → B → A. -/
theorem c1_no_duplicates_amended_witness :
    cycleGraph "A" = .ok ["B"] ∧ (["B"] : List String).Nodup ∧
    getDependenciesRecursive cycleGraph 10 "A" = .ok (some ["B", "A"]) ∧
    (["B", "A"] : List String).Nodup :=
  ⟨by decide, by decide, by decide,
    c1_no_duplicates_amended cycleGraph 10 "A" ["B"] ["B", "A"]
      (by decide) (by decide) (by decide)⟩

/-- C2 (counterexample): the claim that a file without a dynamic section is
treated as having zero direct dependencies, with the closure continuing, is
false for the parsing path: `getDependenciesParse` returns the "No dynamic
section" error for such a file, and the closure computation aborts with that
error instead of continuing. -/
theorem c2_not_dynamic_counterexample :
    staticDeps "/lib/static.so" = .fails (.noDynamicSection "/lib/static.so") ∧
    getDependenciesRecursive staticDeps 10 "/bin/app" =
      .fails (.noDynamicSection "/lib/static.so") :=
  ⟨by decide, by decide⟩

/-- C2 (amended): in the parsing path, a queried file none of whose sections
is named `.dynamic` yields the "No dynamic section" error, a file that has a
`.dynamic` section but none named `.dynstr` yields the distinct "No dynamic
strings section" error — in neither case an empty dependency list — and any
per-file error surfacing during the drain loop aborts the whole closure
computation with that error. -/
theorem c2_not_dynamic_amended :
    (∀ (find : String → Outcome String) (fs : String → Except GoError ELFFile)
      (file : String) (f : ELFFile), fs file = .ok f →
      (∀ s ∈ f.sections.drop 1, s.name ≠ ".dynamic") →
      getDependenciesParse find fs file = .fails (.noDynamicSection file)) ∧
    (∀ (find : String → Outcome String) (fs : String → Except GoError ELFFile)
      (file : String) (f : ELFFile), fs file = .ok f →
      (∃ s ∈ f.sections.drop 1, s.name = ".dynamic") →
      (∀ s ∈ f.sections.drop 1, s.name ≠ ".dynstr") →
      getDependenciesParse find fs file = .fails (.noDynamicStringsSection file)) ∧
    (∀ (g : String → Outcome (List String)) (fuel : Nat) (s : DrainState)
      (lib : String) (rest : List String) (e : GoError),
      s.openList = lib :: rest → g lib = .fails e →
      drainFuel g fuel s = .fails e) := by
  refine ⟨?_, ?_, ?_⟩
  · intro find fs file f hfs hall
    have h0 : findSectionIdx f.sections ".dynamic" = 0 :=
      findSectionFrom_eq_zero ".dynamic" (f.sections.drop 1) 1 hall
    rw [getDependenciesParse]
    simp only [hfs]
    simp [findSectionIdx] at h0
    simp [findSectionIdx, h0]
  · intro find fs file f hfs hdyn hnostr
    have h1 : findSectionIdx f.sections ".dynamic" ≠ 0 :=
      findSectionFrom_ne_zero ".dynamic" (f.sections.drop 1) 1 (by omega) hdyn
    have h2 : findSectionIdx f.sections ".dynstr" = 0 :=
      findSectionFrom_eq_zero ".dynstr" (f.sections.drop 1) 1 hnostr
    rw [getDependenciesParse]
    simp only [hfs]
    simp [findSectionIdx] at h1 h2
    simp [findSectionIdx, h1, h2]
  · intro g fuel s lib rest e hs hg
    rw [drainFuel]
    simp [drainStep, hs, hg]

/-- Witness for the amended C2: a file with no dynamic section, a file with a
dynamic section but no dynamic string section, and the abort of a drain whose
head file fails. -/
theorem c2_not_dynamic_amended_witness :
    staticFS "/lib/static.so" = .ok staticELF ∧
    (∀ s ∈ staticELF.sections.drop 1, s.name ≠ ".dynamic") ∧
    getDependenciesParse staticFind staticFS "/lib/static.so" =
      .fails (.noDynamicSection "/lib/static.so") ∧
    noStrFS "/lib/nostr.so" = .ok noStrELF ∧
    (∃ s ∈ noStrELF.sections.drop 1, s.name = ".dynamic") ∧
    (∀ s ∈ noStrELF.sections.drop 1, s.name ≠ ".dynstr") ∧
    getDependenciesParse stubFind noStrFS "/lib/nostr.so" =
      .fails (.noDynamicStringsSection "/lib/nostr.so") ∧
    drainFuel staticDeps 5 ⟨["/lib/static.so"], ["/lib/static.so"], []⟩ =
      .fails (.noDynamicSection "/lib/static.so") :=
  ⟨by decide, by decide,
    c2_not_dynamic_amended.1 staticFind staticFS "/lib/static.so" staticELF
      (by decide) (by decide),
    by decide, by decide, by decide,
    c2_not_dynamic_amended.2.1 stubFind noStrFS "/lib/nostr.so" noStrELF
      (by decide) (by decide) (by decide),
    c2_not_dynamic_amended.2.2 staticDeps 5 ⟨["/lib/static.so"], ["/lib/static.so"], []⟩
      "/lib/static.so" [] (.noDynamicSection "/lib/static.so") rfl (by decide)⟩

/-- C3 (confirmed): resolution walks the cache candidates for a name in
enumeration order and, provided classification succeeds on the candidates it
probes, skips every candidate whose class differs from the target (the
`Unknown` class, being distinct from any valid target, never matches) and
returns the first candidate whose class equals the target. -/
theorem c3_first_match (classify : String → Outcome String) (mt name : String)
    (cache : List (String × String)) (cands₁ : List String) (c : String)
    (cands₂ : List String)
    (hcands : (cache.filter (fun e => e.fst = name)).map (fun e => e.snd) =
      cands₁ ++ c :: cands₂)
    (hskip : ∀ c' ∈ cands₁, ∃ t, classify c' = .ok t ∧ t ≠ mt)
    (hc : classify c = .ok mt) :
    findLibraryLDConfig classify mt cache name = .ok c := by
  have hne : (cands₁ ++ c :: cands₂).isEmpty = false := by
    cases cands₁ <;> rfl
  simp only [findLibraryLDConfig, hcands, hne, Bool.false_eq_true, if_false]
  exact selectLibrary_first_match classify mt name cands₁ c cands₂ hskip hc

/-- Witness for C3: two cache candidates for `libz.so`, the 32-bit mismatch
enumerated first, the 64-bit match second; resolution returns the match. -/
theorem c3_first_match_witness :
    ([("libz.so", "/lib32/libz.so"), ("libz.so", "/lib64/libz.so")].filter
        (fun e => e.fst = "libz.so")).map (fun e => e.snd) =
      ["/lib32/libz.so"] ++ "/lib64/libz.so" :: [] ∧
    getLibraryMachineType multilibKinds "/lib32/libz.so" = .ok machineTypeX86 ∧
    getLibraryMachineType multilibKinds "/lib64/libz.so" = .ok machineTypeAMD64 ∧
    findLibraryLDConfig (getLibraryMachineType multilibKinds) machineTypeAMD64
      [("libz.so", "/lib32/libz.so"), ("libz.so", "/lib64/libz.so")] "libz.so" =
      .ok "/lib64/libz.so" :=
  ⟨by decide, by decide, by decide,
    c3_first_match (getLibraryMachineType multilibKinds) machineTypeAMD64 "libz.so"
      [("libz.so", "/lib32/libz.so"), ("libz.so", "/lib64/libz.so")]
      ["/lib32/libz.so"] "/lib64/libz.so" [] (by decide)
      (by
        intro c' hc'
        rcases List.mem_singleton.mp hc' with rfl
        exact ⟨machineTypeX86, by decide, by decide⟩)
      (by decide)⟩

/-- C4 (counterexample): the claim that a classification failure propagates
as an error without crashing, and that such a failure while probing a
candidate merely skips it, is false: `getLibraryMachineType` panics when the
file cannot be read or parsed, and a panic while probing the first candidate
aborts resolution even though the second candidate matches the target. -/
theorem c4_classify_error_counterexample :
    getLibraryMachineType probeKinds "/lib32/libx.so" = .panics ∧
    getLibraryMachineType probeKinds "/lib64/libx.so" = .ok machineTypeAMD64 ∧
    selectLibrary (getLibraryMachineType probeKinds) machineTypeAMD64 "libx.so"
      ["/lib32/libx.so", "/lib64/libx.so"] = .panics :=
  ⟨by decide, by decide, by decide⟩

/-- C4 (amended): when a file cannot be read from disk or parsed as an ELF
container, classification panics — it neither returns `Unknown` nor returns
an error — and a classification panic while probing a library candidate
aborts resolution instead of skipping the candidate. -/
theorem c4_classify_error_amended :
    (∀ (readAndParseELF : String → Except GoError ELFKind) (path : String)
      (e : GoError), readAndParseELF path = .error e →
      getLibraryMachineType readAndParseELF path = .panics) ∧
    (∀ (classify : String → Outcome String) (mt name lib : String)
      (rest : List String), classify lib = .panics →
      selectLibrary classify mt name (lib :: rest) = .panics) := by
  constructor
  · intro rp path e h
    simp [getLibraryMachineType, h]
  · intro classify mt name lib rest h
    simp [selectLibrary, h]

/-- Witness for the amended C4 at the probe-failure scenario. -/
theorem c4_classify_error_amended_witness :
    probeKinds "/lib32/libx.so" = .error (.ioError "/lib32/libx.so") ∧
    getLibraryMachineType probeKinds "/lib32/libx.so" = .panics ∧
    selectLibrary (getLibraryMachineType probeKinds) machineTypeAMD64 "libx.so"
      ["/lib32/libx.so", "/lib64/libx.so"] = .panics :=
  ⟨by decide,
    c4_classify_error_amended.1 probeKinds "/lib32/libx.so"
      (.ioError "/lib32/libx.so") (by decide),
    c4_classify_error_amended.2 (getLibraryMachineType probeKinds) machineTypeAMD64
      "libx.so" "/lib32/libx.so" ["/lib64/libx.so"] (by decide)⟩

/-- C5 (confirmed): resolution fails with the "not found in library cache"
error when the cache enumeration yields zero candidates for the name, and
with the architecture-mismatch error naming both the library and the target
machine type when candidates exist but all of them classify to a type other
than the target. -/
theorem c5_notfound_and_mismatch (classify : String → Outcome String)
    (mt : String) (cache : List (String × String)) (name : String) :
    ((cache.filter (fun e => e.fst = name)).map (fun e => e.snd) = [] →
      findLibraryLDConfig classify mt cache name =
        .fails (.libraryNotFoundInCache name)) ∧
    ((cache.filter (fun e => e.fst = name)).map (fun e => e.snd) ≠ [] →
      (∀ c ∈ (cache.filter (fun e => e.fst = name)).map (fun e => e.snd),
        ∃ t, classify c = .ok t ∧ t ≠ mt) →
      findLibraryLDConfig classify mt cache name =
        .fails (.libraryNotAvailable name mt)) := by
  constructor
  · intro h
    simp [findLibraryLDConfig, h]
  · intro hne hall
    have hempty :
        ((cache.filter (fun e => e.fst = name)).map (fun e => e.snd)).isEmpty = false := by
      rcases hl : (cache.filter (fun e => e.fst = name)).map (fun e => e.snd) with _ | ⟨a, l⟩
      · exact absurd hl hne
      · rw [hl]
        rfl
    simp only [findLibraryLDConfig, hempty, Bool.false_eq_true, if_false]
    exact selectLibrary_all_mismatch classify mt name _ hall

/-- Witness for C5: an unknown name fails as not-found; a name whose only
candidate is 32-bit fails as an architecture mismatch against the 64-bit
target, naming the library and the target type. -/
theorem c5_notfound_and_mismatch_witness :
    ([("libz.so", "/lib32/libz.so")].filter (fun e => e.fst = "nope.so")).map
      (fun e => e.snd) = [] ∧
    findLibraryLDConfig (getLibraryMachineType multilibKinds) machineTypeAMD64
      [("libz.so", "/lib32/libz.so")] "nope.so" =
      .fails (.libraryNotFoundInCache "nope.so") ∧
    ([("libz.so", "/lib32/libz.so")].filter (fun e => e.fst = "libz.so")).map
      (fun e => e.snd) ≠ [] ∧
    findLibraryLDConfig (getLibraryMachineType multilibKinds) machineTypeAMD64
      [("libz.so", "/lib32/libz.so")] "libz.so" =
      .fails (.libraryNotAvailable "libz.so" machineTypeAMD64) :=
  ⟨by decide,
    (c5_notfound_and_mismatch (getLibraryMachineType multilibKinds) machineTypeAMD64
      [("libz.so", "/lib32/libz.so")] "nope.so").1 (by decide),
    by decide,
    (c5_notfound_and_mismatch (getLibraryMachineType multilibKinds) machineTypeAMD64
      [("libz.so", "/lib32/libz.so")] "libz.so").2 (by decide)
      (by
        intro c hc
        have hl : ([("libz.so", "/lib32/libz.so")].filter
            (fun e => e.fst = "libz.so")).map (fun e => e.snd) =
            ["/lib32/libz.so"] := by decide
        rw [hl] at hc
        rcases List.mem_singleton.mp hc with rfl
        exact ⟨machineTypeX86, by decide, by decide⟩)⟩

/-- C6 (confirmed): on the cyclic graph A → B → A the closure of A
terminates — any fuel of at least two drain iterations completes with the
worklist empty — and yields exactly the BFS-order list `[B, A]`, with no
path duplicated: B's dependency A is enqueued once, and A's dependency B is
already seen and never re-enqueued. -/
theorem c6_cycle_terminates (n : Nat) (hn : 2 ≤ n) :
    getDependenciesRecursive cycleGraph n "A" = .ok (some ["B", "A"]) ∧
    (["B", "A"] : List String).Nodup := by
  obtain ⟨m, rfl⟩ : ∃ m, n = m + 2 := ⟨n - 2, by omega⟩
  refine ⟨?_, by decide⟩
  rw [getDependenciesRecursive_ok_seed cycleGraph (m + 2) "A" ["B"] (by decide)]
  show drainFuel cycleGraph (m + 1 + 1) ⟨["B"], seedSeen ["B"], []⟩ = .ok (some ["B", "A"])
  rw [drainFuel_succ cycleGraph (m + 1) _ ⟨["A"], ["A", "B"], ["B"]⟩ (by decide)]
  rw [drainFuel_succ cycleGraph m _ ⟨[], ["A", "B"], ["B", "A"]⟩ (by decide)]
  exact drainFuel_empty cycleGraph m _ rfl

/-- Witness for C6 at fuel 2. -/
theorem c6_cycle_terminates_witness :
    2 ≤ 2 ∧ getDependenciesRecursive cycleGraph 2 "A" = .ok (some ["B", "A"]) ∧
    (["B", "A"] : List String).Nodup :=
  ⟨by decide, c6_cycle_terminates 2 (by decide)⟩

/-- C7 (confirmed): the drain loop pops files FIFO from the head of the
worklist and appends each popped file's path to the output exactly once,
after its own dependencies have been queried, enqueueing new discoveries at
the tail; on the 64-bit diamond (root needs liba and libb, both need libc)
the full parse-and-resolve pipeline outputs exactly
`[/lib/liba.so, /lib/libb.so, /lib/libc.so]`, each absolute path once. -/
theorem c7_bfs_order :
    (∀ (g : String → Outcome (List String)) (s s' : DrainState) (lib : String)
      (rest : List String), s.openList = lib :: rest →
      drainStep g s = .ok (some s') →
      s'.files = s.files ++ [lib] ∧
      ∃ libs newL, g lib = .ok libs ∧ s'.openList = rest ++ newL) ∧
    getLibraryMachineType diamondKinds "/bin/root" = .ok machineTypeAMD64 ∧
    getDependenciesRecursive diamondDeps 10 "/bin/root" =
      .ok (some ["/lib/liba.so", "/lib/libb.so", "/lib/libc.so"]) ∧
    (["/lib/liba.so", "/lib/libb.so", "/lib/libc.so"] : List String).Nodup := by
  refine ⟨?_, by decide, by decide, by decide⟩
  intro g s s' lib rest hs h
  obtain ⟨lib', rest', libs, newL, hs', hg, hf, ho, _, _, _⟩ :=
    drainStep_some_spec g s s' h
  rw [hs] at hs'
  injection hs' with h1 h2
  subst h1
  subst h2
  exact ⟨hf, libs, newL, hg, ho⟩

/-- Witness for the universally quantified part of C7 at the first drain
iteration of the diamond scenario. -/
theorem c7_bfs_order_witness :
    (⟨["/lib/liba.so", "/lib/libb.so"], seedSeen ["/lib/liba.so", "/lib/libb.so"],
        []⟩ : DrainState).openList = "/lib/liba.so" :: ["/lib/libb.so"] ∧
    drainStep diamondDeps
      ⟨["/lib/liba.so", "/lib/libb.so"], seedSeen ["/lib/liba.so", "/lib/libb.so"], []⟩ =
      .ok (some ⟨["/lib/libb.so", "/lib/libc.so"],
        ["/lib/libc.so", "/lib/libb.so", "/lib/liba.so"], ["/lib/liba.so"]⟩) ∧
    ((⟨["/lib/libb.so", "/lib/libc.so"],
        ["/lib/libc.so", "/lib/libb.so", "/lib/liba.so"],
        ["/lib/liba.so"]⟩ : DrainState).files = [] ++ ["/lib/liba.so"] ∧
      ∃ libs newL, diamondDeps "/lib/liba.so" = .ok libs ∧
        (⟨["/lib/libb.so", "/lib/libc.so"],
          ["/lib/libc.so", "/lib/libb.so", "/lib/liba.so"],
          ["/lib/liba.so"]⟩ : DrainState).openList = ["/lib/libb.so"] ++ newL) :=
  ⟨by decide, by decide,
    c7_bfs_order.1 diamondDeps
      ⟨["/lib/liba.so", "/lib/libb.so"], seedSeen ["/lib/liba.so", "/lib/libb.so"], []⟩
      ⟨["/lib/libb.so", "/lib/libc.so"],
        ["/lib/libc.so", "/lib/libb.so", "/lib/liba.so"], ["/lib/liba.so"]⟩
      "/lib/liba.so" ["/lib/libb.so"] (by decide) (by decide)⟩

/-- C9 (counterexample): the claim that the root binary's own path never
enters the worklist or the output is false for graphs with an edge back to
the root: on A → B → A with root A, the seeding phase records only A's
direct dependency B as seen, so when B's dependency list names A, the path A
is enqueued and appears in the output. -/
theorem c9_root_excluded_counterexample :
    getDependenciesRecursive cycleGraph 10 "A" = .ok (some ["B", "A"]) ∧
    "A" ∈ ["B", "A"] :=
  ⟨by decide, by decide⟩

/-- C9 (amended): the root's path is never seeded into the worklist as the
root — only its resolved direct dependencies are — so whenever no file's
dependency list resolves to the root's own path, the root's path never
appears in the output; a dependency edge leading back to the root, however,
does enqueue the root's path like any other. -/
theorem c9_root_excluded_amended (g : String → Outcome (List String))
    (fuel : Nat) (root : String) (out : List String)
    (hnever : ∀ f libs, g f = .ok libs → root ∉ libs)
    (hrun : getDependenciesRecursive g fuel root = .ok (some out)) :
    root ∉ out := by
  rcases hg : g root with _ | e | openL
  · rw [getDependenciesRecursive, hg] at hrun
    exact absurd hrun (by simp)
  · rw [getDependenciesRecursive, hg] at hrun
    exact absurd hrun (by simp)
  · rw [getDependenciesRecursive_ok_seed g fuel root openL hg] at hrun
    refine drainFuel_not_mem g root fuel _ out hnever ?_ ?_ hrun
    · exact hnever root openL hg
    · exact List.not_mem_nil root

/-- Witness for the amended C9 at the duplicate-seed graph, whose root is not
named as a dependency by any file. -/
theorem c9_root_excluded_amended_witness :
    (∀ f libs, dupSeedGraph f = .ok libs → "root" ∉ libs) ∧
    getDependenciesRecursive dupSeedGraph 10 "root" =
      .ok (some ["/lib/p.so", "/lib/p.so"]) ∧
    "root" ∉ ["/lib/p.so", "/lib/p.so"] := by
  have hnever : ∀ f libs, dupSeedGraph f = .ok libs → "root" ∉ libs := by
    intro f libs h
    by_cases hf : f = "root"
    · rw [dupSeedGraph, if_pos hf] at h
      injection h with h'
      subst h'
      decide
    · rw [dupSeedGraph, if_neg hf] at h
      injection h with h'
      subst h'
      decide
  exact ⟨hnever, by decide,
    c9_root_excluded_amended dupSeedGraph 10 "root" ["/lib/p.so", "/lib/p.so"]
      hnever (by decide)⟩

/-- C10 (confirmed): the drain-loop invariant — the seen-map contains every
worklist path and every output path — holds at the seeded initial state and
in every state the loop reaches from a state satisfying it; moreover each
successful iteration grows the seen-map monotonically and appends to the
worklist exactly a duplicate-free batch of paths that were not seen before
the iteration and are seen after it, so each distinct path is enqueued at
most once after the seeding phase. -/
theorem c10_drain_invariant (g : String → Outcome (List String)) :
    (∀ openL : List String, drainInv ⟨openL, seedSeen openL, []⟩) ∧
    (∀ s s' : DrainState, drainStep g s = .ok (some s') →
      (∀ x ∈ s.seen, x ∈ s'.seen) ∧
      ∃ newL, s'.openList = s.openList.tail ++ newL ∧ newL.Nodup ∧
        ∀ x ∈ newL, x ∉ s.seen ∧ x ∈ s'.seen) ∧
    (∀ s₀ s : DrainState, drainInv s₀ → Reaches g s₀ s → drainInv s) := by
  refine ⟨?_, ?_, ?_⟩
  · intro openL
    exact ⟨fun x hx => (seedSeen_mem openL x).mpr hx, fun x hx => absurd hx (by simp)⟩
  · intro s s' h
    obtain ⟨lib, rest, libs, newL, hs, hg, hf, ho, hnd, hnew, hseen⟩ :=
      drainStep_some_spec g s s' h
    refine ⟨fun x hx => (hseen x).mpr (Or.inl hx), newL, ?_, hnd, ?_⟩
    · rw [ho, hs]
      rfl
    · intro x hx
      exact ⟨(hnew x hx).1, (hseen x).mpr (Or.inr hx)⟩
  · intro s₀ s hinv hr
    exact reaches_preserves_inv g s₀ s hinv hr

/-- Witness for C10: the invariant at the seeded state of the cyclic graph,
one concrete iteration's enqueue characterization, and the invariant at the
state reached after draining both files. -/
theorem c10_drain_invariant_witness :
    drainInv ⟨["B"], seedSeen ["B"], []⟩ ∧
    ((∀ x ∈ (⟨["B"], seedSeen ["B"], []⟩ : DrainState).seen,
        x ∈ (⟨["A"], ["A", "B"], ["B"]⟩ : DrainState).seen) ∧
      ∃ newL, (⟨["A"], ["A", "B"], ["B"]⟩ : DrainState).openList =
          (⟨["B"], seedSeen ["B"], []⟩ : DrainState).openList.tail ++ newL ∧
        newL.Nodup ∧
        ∀ x ∈ newL, x ∉ (⟨["B"], seedSeen ["B"], []⟩ : DrainState).seen ∧
          x ∈ (⟨["A"], ["A", "B"], ["B"]⟩ : DrainState).seen) ∧
    drainInv ⟨[], ["A", "B"], ["B", "A"]⟩ := by
  have h0 : drainInv ⟨["B"], seedSeen ["B"], []⟩ :=
    (c10_drain_invariant cycleGraph).1 ["B"]
  have hstep1 : drainStep cycleGraph ⟨["B"], seedSeen ["B"], []⟩ =
      .ok (some ⟨["A"], ["A", "B"], ["B"]⟩) := by decide
  have hstep2 : drainStep cycleGraph ⟨["A"], ["A", "B"], ["B"]⟩ =
      .ok (some ⟨[], ["A", "B"], ["B", "A"]⟩) := by decide
  have hr : Reaches cycleGraph ⟨["B"], seedSeen ["B"], []⟩ ⟨[], ["A", "B"], ["B", "A"]⟩ :=
    Relation.ReflTransGen.tail (Relation.ReflTransGen.single hstep1) hstep2
  exact ⟨h0,
    (c10_drain_invariant cycleGraph).2.1 ⟨["B"], seedSeen ["B"], []⟩
      ⟨["A"], ["A", "B"], ["B"]⟩ (by decide),
    (c10_drain_invariant cycleGraph).2.2 ⟨["B"], seedSeen ["B"], []⟩
      ⟨[], ["A", "B"], ["B", "A"]⟩ h0 hr⟩

/-- C8 (counterexample): the claim that a NEEDED string-table offset at or
beyond the bound is reported as a parse error is false: an offset exactly at
the bound silently yields the empty library name, which is passed on to
resolution, and an offset past the bound makes the slice expression panic —
a process crash, not a reported error. -/
theorem c8_offset_bound_counterexample :
    getDependenciesParse stubFind atBoundFS "weird.bin" = .ok ["/cache/"] ∧
    getDependenciesParse stubFind pastBoundFS "bad.bin" = .panics :=
  ⟨by decide, by decide⟩

/-- C8 (amended): a NEEDED offset strictly beyond the string-table bound
panics (the Go slice bounds check), an offset exactly at the bound yields
the silently-empty name, and processing a tag-1 entry whose offset lies
strictly beyond the bound panics the whole per-file extraction. -/
theorem c8_offset_bound_amended :
    (∀ (data : List Nat) (start : Nat), data.length < start →
      readLibName data start = .panics) ∧
    (∀ data : List Nat, readLibName data data.length = .ok "") ∧
    (∀ (find : String → Outcome String) (data : List Nat) (e : DynEntry)
      (rest : List DynEntry), e.tag = 1 → data.length < e.value →
      lookupNeeded find data (e :: rest) = .panics) := by
  refine ⟨?_, ?_, ?_⟩
  · intro data start h
    simp [readLibName, h]
  · intro data
    rw [readLibName, if_neg (by omega), List.drop_length]
    rfl
  · intro find data e rest ht h
    rw [lookupNeeded]
    simp [ht, readLibName, h]

/-- Witness for the amended C8 at the 4-byte string table. -/
theorem c8_offset_bound_amended_witness :
    ([108, 105, 98, 0] : List Nat).length < 5 ∧
    readLibName [108, 105, 98, 0] 5 = .panics ∧
    readLibName [108, 105, 98, 0] ([108, 105, 98, 0] : List Nat).length = .ok "" ∧
    (⟨1, 5⟩ : DynEntry).tag = 1 ∧
    lookupNeeded stubFind [108, 105, 98, 0] [⟨1, 5⟩] = .panics :=
  ⟨by decide,
    c8_offset_bound_amended.1 [108, 105, 98, 0] 5 (by decide),
    c8_offset_bound_amended.2.1 [108, 105, 98, 0],
    by decide,
    c8_offset_bound_amended.2.2 stubFind [108, 105, 98, 0] ⟨1, 5⟩ []
      (by decide) (by decide)⟩
